import Mathlib

/-!
Verification development for the roxiler-backend transaction service.

The definitions below are a shallow embedding of
`src/controllers/transactionController.js`:

* `DateTime`, `Transaction` — the data model (Mongo documents);
* `parseIntJS`, `numFromString`, `parseFloatJS` — the JavaScript numeric
  coercions the controller relies on (`parseInt`, `Number`/global `isNaN`,
  `parseFloat`), modelled on their decimal grammar;
* `monthStart`/`monthEnd`/`inWindow` — the date window built from
  `new Date("2021-MM-01")` and `setMonth(getMonth() + 1)`;
* `monthValid` — the month validation shared by the five read endpoints;
* `regexTest` — unanchored case-insensitive matching of `$regex` with
  option `i`, covering patterns made of literal characters and the `.`
  wildcard;
* `matchesQuery` — the Mongo query of `getTransactions`;
* `paginate`, `ceilPages`, `statsOf`, `bucketIdx`/`bucketCounts`,
  `bumpCategory`/`tallyCategories` — the listing and aggregation logic;
* `getTransactions`, `getStatistics`, `getBarChartData`, `getPieChartData`,
  `getCombinedData` — the request handlers, returning `Except` in place of
  the HTTP 200/500 split;
* `seedTransform`/`initDatabase` — the price coercion of the seed loader.

Prices and times are modelled as rationals, machine strings as `List Char`
(or `String` where only equality matters).
-/

/-- Calendar date-time: year, month (1–12), day (≥ 1), and the time of day as
a nonnegative rational offset within the day. -/
structure DateTime where
  year : Int
  month : Nat
  day : Nat
  time : ℚ
deriving DecidableEq

/-- Strict chronological order on date-times: lexicographic on
(year, month, day, time). -/
def DateTime.Lt (a b : DateTime) : Prop :=
  a.year < b.year ∨
    (a.year = b.year ∧ (a.month < b.month ∨
      (a.month = b.month ∧ (a.day < b.day ∨
        (a.day = b.day ∧ a.time < b.time)))))

instance (a b : DateTime) : Decidable (DateTime.Lt a b) := by
  unfold DateTime.Lt
  exact inferInstance

/-- Boolean strict order on date-times. -/
def DateTime.ltb (a b : DateTime) : Bool := decide (DateTime.Lt a b)

/-- Boolean non-strict order on date-times. -/
def DateTime.leb (a b : DateTime) : Bool := DateTime.ltb a b || decide (a = b)

/-- A well-formed calendar date-time: month 1–12, day at least 1, nonnegative
time of day. -/
def DateTime.Valid (d : DateTime) : Prop :=
  1 ≤ d.month ∧ d.month ≤ 12 ∧ 1 ≤ d.day ∧ 0 ≤ d.time

/-- A stored product-transaction record. -/
structure Transaction where
  title : List Char
  description : List Char
  price : ℚ
  category : String
  sold : Bool
  dateOfSale : DateTime
deriving DecidableEq

/-- Numeric value of a run of decimal digits, most significant first. -/
def digitsToNat (s : List Char) : Nat :=
  s.foldl (fun a c => 10 * a + (c.toNat - 48)) 0

/-- The leading run of decimal digits of a string, as a number; `none` when
the string does not start with a digit. -/
def leadingNat (s : List Char) : Option Nat :=
  let ds := s.takeWhile Char.isDigit
  if ds.isEmpty then none else some (digitsToNat ds)

/-- JavaScript `parseInt` on a decimal string: skip leading spaces, read an
optional sign and then the leading digit run, ignoring any trailing
characters; `none` models `NaN` (no digit found). -/
def parseIntJS (s : List Char) : Option Int :=
  match s.dropWhile (· == ' ') with
  | '-' :: rest => (leadingNat rest).map (fun n => -(n : Int))
  | '+' :: rest => (leadingNat rest).map (fun n => (n : Int))
  | other => (leadingNat other).map (fun n => (n : Int))

/-- A whole string of decimal digits with an optional fractional part, e.g.
"15", "42.5", ".5", "12." — the decimal core of the JavaScript numeric
string grammar.  `none` when any other character appears or no digit
appears at all. -/
def parseDecimal (s : List Char) : Option ℚ :=
  let ip := s.takeWhile Char.isDigit
  match s.drop ip.length with
  | [] => if ip.isEmpty then none else some (digitsToNat ip : ℚ)
  | '.' :: frac =>
      if frac.all Char.isDigit && !(ip.isEmpty && frac.isEmpty) then
        some ((digitsToNat ip : ℚ) + (digitsToNat frac : ℚ) / (10 : ℚ) ^ frac.length)
      else none
  | _ => none

/-- JavaScript `Number(s)` / global `isNaN(s)` on a string (decimal grammar):
trim spaces, an all-blank string is 0, otherwise an optional sign followed by
a decimal literal consuming the entire string; `none` models `NaN`. -/
def numFromString (s : List Char) : Option ℚ :=
  match ((s.dropWhile (· == ' ')).reverse.dropWhile (· == ' ')).reverse with
  | [] => some 0
  | '-' :: rest => (parseDecimal rest).map (fun q => -q)
  | '+' :: rest => parseDecimal rest
  | other => parseDecimal other

/-- A raw JSON field value as far as the seed loader's price coercion cares:
a string, a number, or absent. -/
inductive RawValue where
  | str : List Char → RawValue
  | num : ℚ → RawValue
  | undef : RawValue

/-- The leading decimal-literal value of a string (digits with an optional
fractional part), ignoring trailing characters; `none` when no digit leads. -/
def floatLeadVal (s : List Char) : Option ℚ :=
  let ip := s.takeWhile Char.isDigit
  match s.drop ip.length with
  | '.' :: rest =>
      let fp := rest.takeWhile Char.isDigit
      if ip.isEmpty && fp.isEmpty then none
      else some ((digitsToNat ip : ℚ) + (digitsToNat fp : ℚ) / (10 : ℚ) ^ fp.length)
  | _ => if ip.isEmpty then none else some (digitsToNat ip : ℚ)

/-- JavaScript `parseFloat` (decimal grammar): a number is returned as is, a
missing value is `NaN`, and a string is parsed for its leading float literal
after skipping spaces and an optional sign; `none` models `NaN`. -/
def parseFloatJS : RawValue → Option ℚ
  | .num q => some q
  | .undef => none
  | .str s =>
      match s.dropWhile (· == ' ') with
      | '-' :: rest => (floatLeadVal rest).map (fun q => -q)
      | '+' :: rest => floatLeadVal rest
      | other => floatLeadVal other

/-- Lower-case image of a character string. -/
def charsLower (s : List Char) : List Char := s.map Char.toLower

/-- `startsWithL pat s`: `pat` occurs at the very start of `s`. -/
def startsWithL : List Char → List Char → Bool
  | [], _ => true
  | _ :: _, [] => false
  | p :: ps, c :: cs => p == c && startsWithL ps cs

/-- All suffix positions of a string, longest first, ending with `[]`. -/
def tailsL : List Char → List (List Char)
  | [] => [[]]
  | c :: cs => (c :: cs) :: tailsL cs

/-- `containsSub hay pat`: `pat` occurs somewhere inside `hay`. -/
def containsSub (hay pat : List Char) : Bool :=
  (tailsL hay).any (fun t => startsWithL pat t)

/-- Case-insensitive substring containment. -/
def containsCI (hay pat : List Char) : Bool :=
  containsSub (charsLower hay) (charsLower pat)

/-- Case-insensitive matching of a regex pattern at one position, for the
fragment of the regex language this model covers: a pattern character is the
wildcard `'.'` (matches any one character) or a literal (matches its own
letter up to case). -/
def patMatchHere : List Char → List Char → Bool
  | [], _ => true
  | _ :: _, [] => false
  | p :: ps, c :: cs => (p == '.' || p.toLower == c.toLower) && patMatchHere ps cs

/-- Unanchored case-insensitive regex search: `$regex: search, $options: 'i'`
holds when the pattern matches at some position of the subject. -/
def regexTest (pat s : List Char) : Bool :=
  (tailsL s).any (fun t => patMatchHere pat t)

/-- Characters the regex engine treats specially. -/
def regexMeta : List Char :=
  ['.', '*', '+', '?', '(', ')', '[', ']', '\x7b', '\x7d', '^', '$', '|', '\\']

/-- Patterns free of regex metacharacters, which the engine matches purely
literally. -/
def literalPattern (pat : List Char) : Bool :=
  pat.all (fun c => !(regexMeta.contains c))

/-- The reference year baked into `new Date("2021-MM-01")`. -/
def referenceYear : Int := 2021

/-- `startDate = new Date("2021-" + month + "-01")`: the first instant of day
1 of month `m` in the reference year. -/
def monthStart (m : Nat) : DateTime :=
  { year := referenceYear, month := m, day := 1, time := 0 }

/-- `endDate = new Date(startDate); endDate.setMonth(endDate.getMonth() + 1)`:
the first instant of the following month, December rolling over to January of
the next year. -/
def monthEnd (m : Nat) : DateTime :=
  if m = 12 then { year := referenceYear + 1, month := 1, day := 1, time := 0 }
  else { year := referenceYear, month := m + 1, day := 1, time := 0 }

/-- The Mongo clause `dateOfSale: { $gte: startDate, $lt: endDate }`. -/
def inWindow (m : Nat) (d : DateTime) : Bool :=
  DateTime.leb (monthStart m) d && DateTime.ltb d (monthEnd m)

/-- The month validation every read endpoint repeats:
`!month || isNaN(parseInt(month)) || parseInt(month) < 1 || parseInt(month) > 12`
throws; `none` is an absent parameter and the empty string is falsy. -/
def monthValid : Option (List Char) → Bool
  | none => false
  | some s =>
      !s.isEmpty &&
        match parseIntJS s with
        | none => false
        | some n => decide (1 ≤ n) && decide (n ≤ 12)

/-- `month.padStart(2, '0')`. -/
def padStart2 (s : List Char) : List Char :=
  List.replicate (2 - s.length) '0' ++ s

/-- The month component `new Date("2021-" ++ p ++ "-01")` reads, for the
fragment of the JS date-string grammar this model covers: after skipping
spaces, a run of decimal digits whose value is 1-12 (exactly two digits is
the ISO path; other digit runs go through the legacy parser's three-number
year-month-day path).  Any other month fragment — e.g. the extra numeric
component of "7.5" or the trailing junk of "12abc" — yields an Invalid
Date, modelled as `none`. -/
def dateMonth (p : List Char) : Option Nat :=
  match ((p.dropWhile (· == ' ')).reverse.dropWhile (· == ' ')).reverse with
  | [] => none
  | t =>
      if t.all Char.isDigit then
        if 1 ≤ digitsToNat t && digitsToNat t ≤ 12 then some (digitsToNat t)
        else none
      else none

/-- The month number a handler's window is actually built from: the month of
`new Date("2021-" ++ month.padStart(2,'0') ++ "-01")` (0 is a dummy on the
Invalid-Date paths, which fail at the store's date cast before using it). -/
def monthArg (s : List Char) : Nat := (dateMonth (padStart2 s)).getD 0

/-- The Mongo query of `getTransactions`: `dateOfSale` within the window AND
(`title` matches the search as a case-insensitive regex OR `description`
does OR — pushed only when `!isNaN(search)` — `price` equals
`Number(search)`). -/
def matchesQuery (m : Nat) (search : List Char) (t : Transaction) : Bool :=
  inWindow m t.dateOfSale &&
    (regexTest search t.title || regexTest search t.description ||
      match numFromString search with
      | some q => decide (t.price = q)
      | none => false)

/-- The Filter Builder predicate in the words of the spec: the record is in
the month window AND (the search string is empty, OR the title contains it
as a case-insensitive substring, OR the description does, OR the search
string parses entirely as a number and the price equals that number). -/
def specFilter (m : Nat) (search : List Char) (t : Transaction) : Bool :=
  inWindow m t.dateOfSale &&
    (search.isEmpty || containsCI t.title search || containsCI t.description search ||
      match numFromString search with
      | some q => decide (t.price = q)
      | none => false)

/-- The error kinds of the model: the shared month validation failed
(`throw new Error('Invalid month parameter')`); the store's date cast
rejected the Invalid Date a validation-passing month produced; or, in the
combined endpoint only, one of the four inner requests failed. -/
inductive ApiError where
  | invalidParameter : ApiError
  | storeCastFailure : ApiError
  | downstreamFailure : ApiError
deriving DecidableEq

/-- Whether a handler answered 200 rather than 500. -/
def exOk {α : Type} : Except ApiError α → Bool
  | .ok _ => true
  | .error _ => false

/-- The error kind a handler failed with, if it failed. -/
def errKind {α : Type} : Except ApiError α → Option ApiError
  | .ok _ => none
  | .error e => some e

/-- The records of the store lying in the month window — the common
`Transaction.find({ dateOfSale: { $gte: startDate, $lt: endDate } })` of the
three aggregators. -/
def windowed (store : List Transaction) (m : Nat) : List Transaction :=
  store.filter (fun t => inWindow m t.dateOfSale)

/-- The body of the `getTransactions` 200 response. -/
structure ListResult where
  transactions : List Transaction
  total : Nat
  page : Nat
  perPage : Nat
  totalPages : Int
deriving DecidableEq

/-- `.skip((page - 1) * perPage).limit(perPage)` over the matching records. -/
def paginate (l : List Transaction) (page perPage : Nat) : List Transaction :=
  (l.drop ((page - 1) * perPage)).take perPage

/-- `Math.ceil(total / perPage)`. -/
def ceilPages (total perPage : Nat) : Int := ⌈(total : ℚ) / (perPage : ℚ)⌉

/-- The `getTransactions` handler: validate the month, filter by the query,
paginate, and report the pre-slice total and page count. -/
def getTransactions (store : List Transaction) (month : List Char)
    (page perPage : Nat) (search : List Char) : Except ApiError ListResult :=
  if monthValid (some month) then
    match dateMonth (padStart2 month) with
    | some m =>
        let matching := store.filter (fun t => matchesQuery m search t)
        .ok { transactions := paginate matching page perPage
            , total := matching.length
            , page := page
            , perPage := perPage
            , totalPages := ceilPages matching.length perPage }
    | none => .error .storeCastFailure
  else .error .invalidParameter

/-- The body of the `getStatistics` 200 response. -/
structure StatsResult where
  totalSaleAmount : ℚ
  totalSoldItems : Nat
  totalNotSoldItems : Nat
deriving DecidableEq

/-- The three reductions of `getStatistics` over the windowed records:
`reduce((acc, t) => acc + t.price, 0)`, `filter(t => t.sold).length`,
`filter(t => !t.sold).length`. -/
def statsOf (transactions : List Transaction) : StatsResult :=
  { totalSaleAmount := transactions.foldl (fun acc t => acc + t.price) 0
  , totalSoldItems := (transactions.filter (fun t => t.sold)).length
  , totalNotSoldItems := (transactions.filter (fun t => !t.sold)).length }

/-- The `getStatistics` handler. -/
def getStatistics (store : List Transaction) (month : List Char) :
    Except ApiError StatsResult :=
  if monthValid (some month) then
    match dateMonth (padStart2 month) with
    | some m => .ok (statsOf (windowed store m))
    | none => .error .storeCastFailure
  else .error .invalidParameter

/-- The ten keys of the `priceRanges` object, in declaration order. -/
def bucketNames : List String :=
  ["0-100", "101-200", "201-300", "301-400", "401-500",
   "501-600", "601-700", "701-800", "801-900", "901-above"]

/-- The if/else chain of `getBarChartData`: the index of the bucket a price
is counted in. -/
def bucketIdx (p : ℚ) : Fin 10 :=
  if p ≤ 100 then 0
  else if p ≤ 200 then 1
  else if p ≤ 300 then 2
  else if p ≤ 400 then 3
  else if p ≤ 500 then 4
  else if p ≤ 600 then 5
  else if p ≤ 700 then 6
  else if p ≤ 800 then 7
  else if p ≤ 900 then 8
  else 9

/-- `priceRanges[key]++` for the selected bucket. -/
def bumpBucket (i : Fin 10) (counts : Fin 10 → Nat) : Fin 10 → Nat :=
  fun j => if j = i then counts j + 1 else counts j

/-- The `forEach` of `getBarChartData` over the `priceRanges` object
initialised to ten zeroes. -/
def bucketCounts (ts : List Transaction) : Fin 10 → Nat :=
  ts.foldl (fun acc t => bumpBucket (bucketIdx t.price) acc) (fun _ => 0)

/-- The `priceRanges` object as the response renders it: the ten fixed keys
in order, each with its count. -/
def barChartData (ts : List Transaction) : List (String × Nat) :=
  (List.finRange 10).map (fun i => (bucketNames.getD (i : Nat) "", bucketCounts ts i))

/-- The `getBarChartData` handler. -/
def getBarChartData (store : List Transaction) (month : List Char) :
    Except ApiError (List (String × Nat)) :=
  if monthValid (some month) then
    match dateMonth (padStart2 month) with
    | some m => .ok (barChartData (windowed store m))
    | none => .error .storeCastFailure
  else .error .invalidParameter

/-- A value stored in the `categories` object: a number, or the NaN a
prototype collision produces (serialized as `null` by the JSON response). -/
inductive JsonNum where
  | num : Nat → JsonNum
  | nan : JsonNum
deriving DecidableEq

/-- The own property names of `Object.prototype`, inherited as truthy
function values by the `{}` object literal the category tally starts from. -/
def protoKeys : List String :=
  ["constructor", "hasOwnProperty", "isPrototypeOf", "propertyIsEnumerable",
   "toLocaleString", "toString", "valueOf",
   "__defineGetter__", "__defineSetter__", "__lookupGetter__",
   "__lookupSetter__"]

/-- One iteration of the `forEach` of `getPieChartData` on the `categories`
object: `if (!categories[c]) categories[c] = 0; categories[c]++`, own keys
kept in insertion order, with the prototype chain of the object literal
visible to both the lookup and the assignment.  An own numeric or NaN value
behaves normally (`!NaN` resets to 0, so NaN steps to 1).  With no own key:
a category naming an inherited `Object.prototype` function finds a truthy
value, skips the reset, and `++` stores `NaN`; a category `"__proto__"`
finds the truthy prototype via the inherited accessor and the subsequent
assignment hits its setter with a non-object, so no own key is ever
created; any other category is reset to 0 and incremented to 1. -/
def bumpCategory (c : String) : List (String × JsonNum) → List (String × JsonNum)
  | [] =>
      if c ∈ protoKeys then [(c, JsonNum.nan)]
      else if c = "__proto__" then []
      else [(c, JsonNum.num 1)]
  | (k, v) :: rest =>
      if k = c then
        (match v with
          | JsonNum.num n => (k, JsonNum.num (n + 1))
          | JsonNum.nan => (k, JsonNum.num 1)) :: rest
      else (k, v) :: bumpCategory c rest

/-- The `forEach` of `getPieChartData` over the initially empty `categories`
object. -/
def tallyCategories (ts : List Transaction) : List (String × JsonNum) :=
  ts.foldl (fun acc t => bumpCategory t.category acc) []

/-- The value stored under an own key of the tally, if any. -/
def keyVal (k : String) : List (String × JsonNum) → Option JsonNum
  | [] => none
  | (k', v) :: rest => if k' = k then some v else keyVal k rest

/-- How one occurrence of category `c` transforms the own value under `c`. -/
def stepVal (c : String) : Option JsonNum → Option JsonNum
  | some (JsonNum.num n) => some (JsonNum.num (n + 1))
  | some JsonNum.nan => some (JsonNum.num 1)
  | none =>
      if c ∈ protoKeys then some JsonNum.nan
      else if c = "__proto__" then none
      else some (JsonNum.num 1)

/-- The own value the tally ends up holding under a category borne by `n`
windowed records: exact count `n` for an ordinary label, `NaN` once and
`n - 1` thereafter for a label colliding with an inherited
`Object.prototype` property, and never anything for `"__proto__"`. -/
def tallyValue (k : String) (n : Nat) : Option JsonNum :=
  if k ∈ protoKeys then
    if n = 0 then none
    else if n = 1 then some JsonNum.nan
    else some (JsonNum.num (n - 1))
  else if k = "__proto__" then none
  else if n = 0 then none
  else some (JsonNum.num n)

/-- The `getPieChartData` handler. -/
def getPieChartData (store : List Transaction) (month : List Char) :
    Except ApiError (List (String × JsonNum)) :=
  if monthValid (some month) then
    match dateMonth (padStart2 month) with
    | some m => .ok (tallyCategories (windowed store m))
    | none => .error .storeCastFailure
  else .error .invalidParameter

/-- The body of the `getCombinedData` 200 response. -/
structure CombinedResult where
  transactions : ListResult
  statistics : StatsResult
  barChart : List (String × Nat)
  pieChart : List (String × JsonNum)
deriving DecidableEq

/-- The `getCombinedData` handler: validate the month itself, then call the
four endpoints — the listing with the full query, the three aggregators with
the month alone — failing wholly when any sub-call fails. -/
def getCombinedData (store : List Transaction) (month : List Char)
    (search : List Char) (page perPage : Nat) : Except ApiError CombinedResult :=
  if monthValid (some month) then
    match getTransactions store month page perPage search,
        getStatistics store month,
        getBarChartData store month,
        getPieChartData store month with
    | .ok t, .ok s, .ok b, .ok p =>
        .ok { transactions := t, statistics := s, barChart := b, pieChart := p }
    | _, _, _, _ => .error .downstreamFailure
  else .error .invalidParameter

/-- A raw seed record as fetched from the remote dataset: the price field is
still an arbitrary JSON value; the other fields pass through unchanged. -/
structure RawTransaction where
  title : List Char
  description : List Char
  price : RawValue
  category : String
  sold : Bool
  dateOfSale : DateTime

/-- `const price = parseFloat(t.price); { ...t, price: isNaN(price) ? 0 : price }`. -/
def seedTransform (r : RawTransaction) : Transaction :=
  { title := r.title
  , description := r.description
  , price := match parseFloatJS r.price with
             | some q => q
             | none => 0
  , category := r.category
  , sold := r.sold
  , dateOfSale := r.dateOfSale }

/-- The record transformation of `initializeDatabase`: every fetched record
is stored, with its price coerced. -/
def initDatabase (raws : List RawTransaction) : List Transaction :=
  raws.map seedTransform

/-- An entire-string integer parse: an optional sign followed by digits,
consuming the whole string — the spec's strict reading of "month must be an
integer", used to compare the implemented validation against. -/
def entireIntParse (s : List Char) : Option Int :=
  match s with
  | '-' :: rest =>
      if !rest.isEmpty && rest.all Char.isDigit then some (-(digitsToNat rest : Int))
      else none
  | '+' :: rest =>
      if !rest.isEmpty && rest.all Char.isDigit then some (digitsToNat rest : Int)
      else none
  | other =>
      if !other.isEmpty && other.all Char.isDigit then some (digitsToNat other : Int)
      else none

/-- The spec's validation predicate: the month string parses entirely as an
integer lying in 1–12. -/
def specIntegerMonth (s : List Char) : Bool :=
  match entireIntParse s with
  | some n => decide (1 ≤ n) && decide (n ≤ 12)
  | none => false

/-! ### String and regex lemmas -/

theorem containsSub_nil_pat (hay : List Char) : containsSub hay [] = true := by
  cases hay <;> simp [containsSub, tailsL, startsWithL]

theorem containsCI_nil_pat (hay : List Char) : containsCI hay [] = true := by
  unfold containsCI charsLower
  simpa using containsSub_nil_pat (hay.map Char.toLower)

theorem anyMapL {α β : Type} (l : List α) (f : α → β) (p : β → Bool) :
    (l.map f).any p = l.any (fun x => p (f x)) := by
  induction l with
  | nil => rfl
  | cons a l ih => simp [ih]

theorem tailsL_charsLower (s : List Char) :
    tailsL (charsLower s) =  (tailsL s).map charsLower := by
  induction s with
  | nil => rfl
  | cons c cs ih => simp [charsLower, tailsL] at ih ⊢; exact ih

theorem patMatchHere_literal (pat : List Char) (hp : literalPattern pat = true) :
    ∀ s, patMatchHere pat s = startsWithL (charsLower pat) (charsLower s) := by
  induction pat with
  | nil => intro s; cases s <;> rfl
  | cons p ps ih =>
      have hmeta : (regexMeta.contains p) = false ∧ literalPattern ps = true := by
        have := hp
        simp [literalPattern, List.all_cons] at this
        simpa [literalPattern] using this
      have hdot : (p == '.') = false := by
        rcases hmeta with ⟨h1, _⟩
        by_contra hne
        have hpd : p = '.' := by
          cases hpe : p == '.'
          · exact absurd hpe hne
          · exact beq_iff_eq.mp hpe
        subst hpd
        simp [regexMeta] at h1
      intro s
      cases s with
      | nil => simp [patMatchHere, charsLower, startsWithL]
      | cons c cs =>
          simp only [patMatchHere, charsLower, List.map_cons, startsWithL]
          rw [hdot]
          have ihc := ih hmeta.2 cs
          simp only [charsLower] at ihc
          rw [ihc]
          simp

theorem regexTest_literal (pat : List Char) (hp : literalPattern pat = true)
    (s : List Char) : regexTest pat s = containsCI s pat := by
  unfold regexTest containsCI containsSub
  rw [tailsL_charsLower, anyMapL]
  congr 1
  funext t
  exact patMatchHere_literal pat hp t

/-! ### C1: the transaction filter -/

/-- A record whose title and description contain no dot, used to exhibit the
regex behaviour of the search filter. -/
def txDotless : Transaction :=
  { title := ['x'], description := ['y'], price := 5, category := "c"
  , sold := true, dateOfSale := { year := 2021, month := 3, day := 15, time := 0 } }

/-- C1 counterexample: with the search string ".", the implemented filter
accepts a windowed record whose title, description and price all fail the
spec's predicate — `$regex` interprets the search string as a pattern, not a
literal substring. -/
theorem c1_filter_counterexample :
    matchesQuery 3 (".".toList) txDotless = true ∧
      specFilter 3 (".".toList) txDotless = false := by
  constructor <;> decide

/-- C1 (amended): for every month, record, and search string free of regex
metacharacters, the implemented filter accepts the record exactly when the
spec's predicate does: the record's dateOfSale falls in the month window AND
(the search is empty, OR a case-insensitive substring of the title or the
description, OR it parses entirely as a number equal to the price). -/
theorem c1_filter_literal_search (m : Nat) (search : List Char) (t : Transaction)
    (hs : literalPattern search = true) :
    matchesQuery m search t = specFilter m search t := by
  unfold matchesQuery specFilter
  rw [regexTest_literal search hs, regexTest_literal search hs]
  cases he : search.isEmpty
  · rfl
  · have hnil : search = [] := by
      cases search
      · rfl
      · simp [List.isEmpty] at he
    subst hnil
    rw [containsCI_nil_pat]
    simp

/-- C1 witness: the amended equivalence applied to a concrete
metacharacter-free search. -/
theorem c1_filter_witness :
    matchesQuery 3 ("x".toList) txDotless = specFilter 3 ("x".toList) txDotless :=
  c1_filter_literal_search 3 ("x".toList) txDotless (by decide)

/-! ### Date-window lemmas -/

theorem lt_firstInstant_iff (Y : Int) (M : Nat) (d : DateTime) (hv : d.Valid) :
    DateTime.Lt d { year := Y, month := M, day := 1, time := 0 } ↔
      (d.year < Y ∨ (d.year = Y ∧ d.month < M)) := by
  obtain ⟨dy, dmo, dda, dti⟩ := d
  obtain ⟨h1, h2, h3, h4⟩ := hv
  simp only [DateTime.Lt] at *
  constructor
  · rintro (h | ⟨hy, h | ⟨hmo, h | ⟨hda, ht⟩⟩⟩)
    · exact Or.inl h
    · exact Or.inr ⟨hy, h⟩
    · omega
    · exact absurd ht (by simpa using h4)
  · rintro (h | ⟨hy, hmo⟩)
    · exact Or.inl h
    · exact Or.inr ⟨hy, Or.inl hmo⟩

theorem ge_firstInstant_iff (Y : Int) (M : Nat) (d : DateTime) (hv : d.Valid) :
    (DateTime.Lt { year := Y, month := M, day := 1, time := 0 } d ∨
        ({ year := Y, month := M, day := 1, time := 0 } : DateTime) = d) ↔
      (Y < d.year ∨ (d.year = Y ∧ M ≤ d.month)) := by
  obtain ⟨dy, dmo, dda, dti⟩ := d
  obtain ⟨h1, h2, h3, h4⟩ := hv
  simp only [DateTime.Lt, DateTime.mk.injEq] at *
  constructor
  · rintro ((h | ⟨hy, h | ⟨hmo, _⟩⟩) | ⟨hy, hmo, _, _⟩)
    · exact Or.inl h
    · exact Or.inr ⟨hy.symm, Nat.le_of_lt h⟩
    · exact Or.inr ⟨hy.symm, Nat.le_of_eq hmo⟩
    · exact Or.inr ⟨hy.symm, Nat.le_of_eq hmo⟩
  · rintro (h | ⟨hy, hmo⟩)
    · exact Or.inl (Or.inl h)
    · rcases Nat.lt_or_ge M dmo with hlt | hge
      · exact Or.inl (Or.inr ⟨hy.symm, Or.inl hlt⟩)
      · have hmo' : M = dmo := Nat.le_antisymm hmo hge
        rcases Nat.lt_or_ge 1 dda with hda | hda
        · exact Or.inl (Or.inr ⟨hy.symm, Or.inr ⟨hmo', Or.inl hda⟩⟩)
        · have hda' : dda = 1 := Nat.le_antisymm hda h3
          rcases lt_or_eq_of_le h4 with ht | ht
          · exact Or.inl (Or.inr ⟨hy.symm, Or.inr ⟨hmo', Or.inr ⟨by omega, ht⟩⟩⟩)
          · exact Or.inr ⟨hy.symm, hmo', by omega, ht⟩

/-- C3 helper: for a month in 1–12, a well-formed date-time lies in the query
window exactly when its year is the reference year and its month is the
requested month. -/
theorem inWindow_iff (m : Nat) (h1 : 1 ≤ m) (h2 : m ≤ 12) (d : DateTime)
    (hv : d.Valid) :
    inWindow m d = true ↔ (d.year = 2021 ∧ d.month = m) := by
  have hv' := hv
  obtain ⟨hm1, hm2, hd1, ht0⟩ := hv'
  rw [inWindow, Bool.and_eq_true, DateTime.leb, DateTime.ltb, DateTime.ltb,
    Bool.or_eq_true, decide_eq_true_eq, decide_eq_true_eq, decide_eq_true_eq]
  simp only [monthStart, monthEnd, referenceYear]
  by_cases hm12 : m = 12
  · subst hm12
    rw [if_pos rfl, ge_firstInstant_iff 2021 12 d hv,
      lt_firstInstant_iff (2021 + 1) 1 d hv]
    omega
  · rw [if_neg hm12, ge_firstInstant_iff 2021 m d hv,
      lt_firstInstant_iff 2021 (m + 1) d hv]
    omega

/-! ### C3: the month window -/

/-- C3: for every month 1–12 the resolver yields the half-open window from
the first instant of day 1 of that month in the fixed reference year 2021 to
the first instant of day 1 of the following month, December rolling over to
January 2022; a well-formed date-time falls in the window exactly when its
year is 2021 and its month is the requested one (so no other year ever
matches), and the windowed record set every aggregation endpoint uses is the
filter of the store by that window. -/
theorem c3_month_window (m : Nat) (h1 : 1 ≤ m) (h2 : m ≤ 12) :
    monthStart m = { year := 2021, month := m, day := 1, time := 0 } ∧
    (m < 12 → monthEnd m = { year := 2021, month := m + 1, day := 1, time := 0 }) ∧
    monthEnd 12 = { year := 2022, month := 1, day := 1, time := 0 } ∧
    (∀ d : DateTime, d.Valid → (inWindow m d = true ↔ (d.year = 2021 ∧ d.month = m))) ∧
    (∀ store : List Transaction,
        windowed store m = store.filter (fun t => inWindow m t.dateOfSale)) := by
  refine ⟨rfl, ?_, by norm_num [monthEnd, referenceYear], ?_, fun store => rfl⟩
  · intro hlt
    rw [monthEnd, if_neg (by omega)]
    rfl
  · intro d hv
    exact inWindow_iff m h1 h2 d hv

/-- C3 witness: the window characterisation applied to December and a
concrete date. -/
theorem c3_month_window_witness :
    inWindow 12 { year := 2021, month := 12, day := 31, time := 1/2 } = true ↔
      ((2021 : Int) = 2021 ∧ (12 : Nat) = 12) :=
  (c3_month_window 12 (by decide) (by decide)).2.2.2.1
    { year := 2021, month := 12, day := 31, time := 1/2 }
    ⟨by decide, by decide, by decide, by norm_num⟩

/-! ### C4: month validation -/

theorem parseIntJS_nil : parseIntJS [] = none := rfl

theorem takeWhile_digits (s : List Char) (hd : s.all Char.isDigit = true) :
    s.takeWhile Char.isDigit = s := by
  induction s with
  | nil => rfl
  | cons c cs ih =>
      simp only [List.all_cons, Bool.and_eq_true] at hd
      simp [List.takeWhile_cons, hd.1, ih hd.2]

theorem dropWhile_space_of_digits (s : List Char) (hd : s.all Char.isDigit = true) :
    s.dropWhile (· == ' ') = s := by
  cases s with
  | nil => rfl
  | cons c cs =>
      simp only [List.all_cons, Bool.and_eq_true] at hd
      have hcs : (c == ' ') = false := by
        cases h : c == ' '
        · rfl
        · have hce : c = ' ' := beq_iff_eq.mp h
          rw [hce] at hd
          exact absurd hd.1 (by decide)
      simp [List.dropWhile_cons, hcs]

theorem all_digits_reverse (s : List Char) (hd : s.all Char.isDigit = true) :
    s.reverse.all Char.isDigit = true := by
  rw [List.all_eq_true] at hd ⊢
  intro c hc
  exact hd c (List.mem_reverse.mp hc)

theorem padStart2_digits (s : List Char) (hne : s.isEmpty = false)
    (hd : s.all Char.isDigit = true) :
    (padStart2 s).isEmpty = false ∧ (padStart2 s).all Char.isDigit = true ∧
      digitsToNat (padStart2 s) = digitsToNat s := by
  match s with
  | [] => simp at hne
  | [c] =>
      have hps : padStart2 [c] = ['0', c] := rfl
      refine ⟨by rw [hps]; rfl, ?_, rfl⟩
      rw [hps]
      simp only [List.all_cons, Bool.and_eq_true] at hd ⊢
      exact ⟨by decide, hd⟩
  | c1 :: c2 :: rest =>
      have hlen : 2 - (c1 :: c2 :: rest).length = 0 := by
        simp [List.length_cons]
      rw [padStart2, hlen]
      simp [hd]

theorem dateMonth_digits (s : List Char) (hne : s.isEmpty = false)
    (hd : s.all Char.isDigit = true) (h1 : 1 ≤ digitsToNat s)
    (h2 : digitsToNat s ≤ 12) :
    dateMonth s = some (digitsToNat s) := by
  simp only [dateMonth]
  rw [dropWhile_space_of_digits s hd,
    dropWhile_space_of_digits s.reverse (all_digits_reverse s hd),
    List.reverse_reverse]
  cases s with
  | nil => simp at hne
  | cons c cs => simp [hd, h1, h2]

theorem parseIntJS_digits (s : List Char) (hne : s.isEmpty = false)
    (hd : s.all Char.isDigit = true) :
    parseIntJS s = some ((digitsToNat s : Nat) : Int) := by
  cases s with
  | nil => simp at hne
  | cons c cs =>
      have hc : c.isDigit = true := by
        simp only [List.all_cons, Bool.and_eq_true] at hd
        exact hd.1
      rw [parseIntJS, dropWhile_space_of_digits _ hd]
      split
      · next rest heq =>
          injection heq with hch _
          rw [hch] at hc
          exact absurd hc (by decide)
      · next rest heq =>
          injection heq with hch _
          rw [hch] at hc
          exact absurd hc (by decide)
      · rw [leadingNat]
        simp only [takeWhile_digits _ hd]
        simp [leadingNat]

theorem monthValid_digits (s : List Char) (hne : s.isEmpty = false)
    (hd : s.all Char.isDigit = true) (h1 : 1 ≤ digitsToNat s)
    (h2 : digitsToNat s ≤ 12) :
    monthValid (some s) = true := by
  rw [monthValid, parseIntJS_digits s hne hd]
  simp only [hne, Bool.not_false, Bool.true_and]
  simp only [Bool.and_eq_true, decide_eq_true_eq]
  exact ⟨by exact_mod_cast h1, by exact_mod_cast h2⟩

/-- C4 counterexample: the month string "7.5" is not an integer in 1–12 in
the spec's strict sense, yet the validation that is supposed to reject it
accepts it (parseInt truncates at the dot) and the request proceeds past the
InvalidParameter gate into the computation; it then fails at the store when
the Invalid Date built from "2021-7.5-01" reaches the date cast — a store
failure after the window construction, not an InvalidParameter error before
any computation or store query. -/
theorem c4_validation_counterexample :
    specIntegerMonth ("7.5".toList) = false ∧
      monthValid (some ("7.5".toList)) = true ∧
      errKind (getStatistics [] ("7.5".toList)) = some ApiError.storeCastFailure := by
  refine ⟨by decide, by decide, by decide⟩

/-- C4 (amended): every read-side operation fails with InvalidParameter
exactly when the shared validation rejects the month, and that validation
accepts a month string exactly when parseInt's leading-integer reading of it
(optional sign, leading digit run, trailing junk ignored) lies in 1–12:
absent, empty and digit-free months are rejected, and every integer month
written in digits with value 1–12 passes validation and succeeds — but the
validation is not an integrality check: a month such as "7.5" passes it,
and such a month fails later at the store's date cast (an Invalid Date)
rather than with InvalidParameter before the computation. -/
theorem c4_validation (store : List Transaction) (month search : List Char)
    (page perPage : Nat) :
    (errKind (getTransactions store month page perPage search)
        = some ApiError.invalidParameter ↔ monthValid (some month) = false) ∧
    (errKind (getStatistics store month)
        = some ApiError.invalidParameter ↔ monthValid (some month) = false) ∧
    (errKind (getBarChartData store month)
        = some ApiError.invalidParameter ↔ monthValid (some month) = false) ∧
    (errKind (getPieChartData store month)
        = some ApiError.invalidParameter ↔ monthValid (some month) = false) ∧
    (errKind (getCombinedData store month search page perPage)
        = some ApiError.invalidParameter ↔ monthValid (some month) = false) ∧
    monthValid none = false ∧
    (month = [] → monthValid (some month) = false) ∧
    (parseIntJS month = none → monthValid (some month) = false) ∧
    (∀ n : Int, parseIntJS month = some n →
        (monthValid (some month) = true ↔ (1 ≤ n ∧ n ≤ 12))) ∧
    (month.isEmpty = false → month.all Char.isDigit = true →
        1 ≤ digitsToNat month → digitsToNat month ≤ 12 →
        monthValid (some month) = true ∧
        exOk (getTransactions store month page perPage search) = true ∧
        exOk (getStatistics store month) = true ∧
        exOk (getBarChartData store month) = true ∧
        exOk (getPieChartData store month) = true ∧
        exOk (getCombinedData store month search page perPage) = true) := by
  by_cases hv : monthValid (some month) = true
  · have hkind : ∀ {α : Type} (x : Except ApiError α),
        (errKind x = some ApiError.invalidParameter ↔ monthValid (some month) = false)
          ↔ (errKind x ≠ some ApiError.invalidParameter) := by
      intro α x
      rw [hv]
      constructor
      · intro h hx
        cases h.mp hx
      · intro h
        constructor
        · intro hx
          exact absurd hx h
        · intro hfalse
          cases hfalse
    refine ⟨?_, ?_, ?_, ?_, ?_, rfl, ?_, ?_, ?_, ?_⟩
    · rw [hkind]
      cases heq : dateMonth (padStart2 month) <;>
        simp [getTransactions, hv, heq, errKind]
    · rw [hkind]
      cases heq : dateMonth (padStart2 month) <;>
        simp [getStatistics, hv, heq, errKind]
    · rw [hkind]
      cases heq : dateMonth (padStart2 month) <;>
        simp [getBarChartData, hv, heq, errKind]
    · rw [hkind]
      cases heq : dateMonth (padStart2 month) <;>
        simp [getPieChartData, hv, heq, errKind]
    · rw [hkind]
      cases heq : dateMonth (padStart2 month) <;>
        simp [getCombinedData, getTransactions, getStatistics, getBarChartData,
          getPieChartData, hv, heq, errKind]
    · intro hnil
      subst hnil
      exact absurd hv (by decide)
    · intro hparse
      rw [monthValid] at hv
      rw [hparse] at hv
      simp at hv
    · intro n hparse
      rw [monthValid, hparse] at hv ⊢
      constructor
      · intro _
        simp only [Bool.and_eq_true, decide_eq_true_eq] at hv
        exact hv.2
      · intro _
        exact hv
    · intro hne hdig hlo hhi
      obtain ⟨hp1, hp2, hp3⟩ := padStart2_digits month hne hdig
      have hdm : dateMonth (padStart2 month) = some (digitsToNat month) := by
        rw [dateMonth_digits (padStart2 month) hp1 hp2 (by omega) (by omega), hp3]
      refine ⟨hv, ?_, ?_, ?_, ?_, ?_⟩
      · simp [getTransactions, hv, hdm, exOk]
      · simp [getStatistics, hv, hdm, exOk]
      · simp [getBarChartData, hv, hdm, exOk]
      · simp [getPieChartData, hv, hdm, exOk]
      · simp [getCombinedData, getTransactions, getStatistics, getBarChartData,
          getPieChartData, hv, hdm, exOk]
  · have hv' : monthValid (some month) = false := by
      cases hmv : monthValid (some month)
      · rfl
      · exact absurd hmv hv
    rw [hv']
    refine ⟨?_, ?_, ?_, ?_, ?_, rfl, fun _ => rfl, fun _ => rfl, ?_, ?_⟩
    · simp [getTransactions, hv', errKind]
    · simp [getStatistics, hv', errKind]
    · simp [getBarChartData, hv', errKind]
    · simp [getPieChartData, hv', errKind]
    · simp [getCombinedData, hv', errKind]
    · intro n hparse
      rw [monthValid, hparse] at hv'
      simp only [Bool.and_eq_true, decide_eq_true_eq] at hv' ⊢
      constructor
      · intro hfalse
        exact absurd hfalse (by simp)
      · intro hn
        exfalso
        have hne : month.isEmpty = false := by
          cases month
          · rw [parseIntJS_nil] at hparse
            cases hparse
          · rfl
        rw [hne] at hv'
        simp [hn.1, hn.2] at hv'
    · intro hne hdig hlo hhi
      exact absurd (monthValid_digits month hne hdig hlo hhi) hv

/-- C4 witness: the amended characterisation applied to the month string
"12". -/
theorem c4_validation_witness :
    monthValid (some ("12".toList)) = true ∧
      exOk (getStatistics [] ("12".toList)) = true := by
  have h := (c4_validation [] ("12".toList) [] 1 10).2.2.2.2.2.2.2.2.2
    (by decide) (by decide) (by decide) (by decide)
  exact ⟨h.1, h.2.2.1⟩

/-! ### Ceiling-division lemmas -/

theorem ceil_div_mul_ge (t pp : Nat) (hpp : 0 < pp) :
    t ≤ (t + pp - 1) / pp * pp := by
  have h1 : pp * ((t + pp - 1) / pp) + (t + pp - 1) % pp = t + pp - 1 :=
    Nat.div_add_mod (t + pp - 1) pp
  have h2 : (t + pp - 1) % pp < pp := Nat.mod_lt (t + pp - 1) hpp
  rw [Nat.mul_comm] at h1
  generalize hM : (t + pp - 1) / pp * pp = M at h1 ⊢
  generalize hR : (t + pp - 1) % pp = R at h1 h2
  omega

theorem ceil_div_mul_lt (t pp : Nat) (hpp : 0 < pp) :
    ((t + pp - 1) / pp - 1) * pp < t ∨ (t + pp - 1) / pp = 0 := by
  rcases Nat.eq_zero_or_pos ((t + pp - 1) / pp) with hq | hq
  · exact Or.inr hq
  · left
    have h1 : pp * ((t + pp - 1) / pp) + (t + pp - 1) % pp = t + pp - 1 :=
      Nat.div_add_mod (t + pp - 1) pp
    have h2 : (t + pp - 1) % pp < pp := Nat.mod_lt (t + pp - 1) hpp
    rw [Nat.mul_comm] at h1
    rw [Nat.sub_mul, Nat.one_mul]
    generalize hM : (t + pp - 1) / pp * pp = M at h1 ⊢
    generalize hR : (t + pp - 1) % pp = R at h1 h2
    have hppM : pp ≤ M := by
      rw [← hM]
      calc pp = 1 * pp := (Nat.one_mul pp).symm
      _ ≤ (t + pp - 1) / pp * pp := Nat.mul_le_mul_right pp hq
    omega

/-- `Math.ceil(total / perPage)` agrees with the usual natural-number
ceiling-division formula whenever the page size is positive. -/
theorem ceilPages_eq (t pp : Nat) (hpp : 0 < pp) :
    ceilPages t pp = (((t + pp - 1) / pp : Nat) : Int) := by
  have hppQ : (0 : ℚ) < (pp : ℚ) := by exact_mod_cast hpp
  rw [ceilPages]
  apply le_antisymm
  · rw [Int.ceil_le]
    rw [div_le_iff₀ hppQ]
    have h := ceil_div_mul_ge t pp hpp
    push_cast
    exact_mod_cast h
  · rcases Nat.eq_zero_or_pos ((t + pp - 1) / pp) with hq | hq
    · rw [hq]
      simp only [Nat.cast_zero]
      exact Int.ceil_nonneg (by positivity)
    · have h : ((t + pp - 1) / pp - 1) * pp < t := by
        rcases ceil_div_mul_lt t pp hpp with h | h0
        · exact h
        · omega
      have hlt : (((t + pp - 1) / pp : Nat) : Int) - 1 < ⌈(t : ℚ) / (pp : ℚ)⌉ := by
        rw [Int.lt_ceil, lt_div_iff₀ hppQ]
        have hc : (((t + pp - 1) / pp - 1 : Nat) : ℚ) * (pp : ℚ) < (t : ℚ) := by
          exact_mod_cast h
        rw [Nat.cast_sub hq] at hc
        exact_mod_cast hc
      omega

/-! ### C5: pagination -/

/-- C5: for every list of matching records, 1-based page and positive page
size, the lister's slice holds exactly the records at indices
[(page-1)·perPage, page·perPage) of the matching list in order, the reported
total is the pre-slice length, totalPages is ceil(total/perPage), a page
past the last yields the empty slice, and the endpoint reports exactly these
values over the records matching its query. -/
theorem c5_pagination (l : List Transaction) (page perPage : Nat)
    (hpage : 1 ≤ page) (hpp : 1 ≤ perPage) :
    (paginate l page perPage).length = min perPage (l.length - (page - 1) * perPage) ∧
    (∀ i : Nat, i < perPage →
        (paginate l page perPage)[i]? = l[(page - 1) * perPage + i]?) ∧
    ceilPages l.length perPage = (((l.length + perPage - 1) / perPage : Nat) : Int) ∧
    ((ceilPages l.length perPage).toNat < page → paginate l page perPage = []) ∧
    (∀ (store : List Transaction) (month search : List Char) (r : ListResult),
        getTransactions store month page perPage search = .ok r →
          r.transactions =
              paginate (store.filter (fun t => matchesQuery (monthArg month) search t))
                page perPage ∧
            r.total =
              (store.filter (fun t => matchesQuery (monthArg month) search t)).length ∧
            r.totalPages = ceilPages r.total perPage) := by
  refine ⟨?_, ?_, ceilPages_eq l.length perPage hpp, ?_, ?_⟩
  · simp [paginate]
  · intro i hi
    rw [paginate, List.getElem?_take_of_lt hi, List.getElem?_drop]
  · intro hbeyond
    rw [ceilPages_eq l.length perPage hpp] at hbeyond
    rw [Int.toNat_ofNat] at hbeyond
    have hle : l.length ≤ (l.length + perPage - 1) / perPage * perPage :=
      ceil_div_mul_ge l.length perPage hpp
    have hmul : (l.length + perPage - 1) / perPage * perPage ≤ (page - 1) * perPage :=
      Nat.mul_le_mul_right perPage (by omega)
    rw [paginate, List.drop_eq_nil_of_le (by omega), List.take_nil]
  · intro store month search r hok
    by_cases hv : monthValid (some month) = true
    · rw [getTransactions, if_pos hv] at hok
      cases heq : dateMonth (padStart2 month) with
      | none =>
          rw [heq] at hok
          cases hok
      | some m =>
          rw [heq] at hok
          cases hok
          refine ⟨?_, ?_, rfl⟩
          · simp [monthArg, heq]
          · simp [monthArg, heq]
    · rw [getTransactions, if_neg hv] at hok
      cases hok

/-- C5 witness: pagination of a concrete three-record list at page 2 with
one record per page. -/
theorem c5_pagination_witness :
    (paginate [txDotless, txDotless, txDotless] 2 1).length =
      min 1 ([txDotless, txDotless, txDotless].length - (2 - 1) * 1) :=
  (c5_pagination [txDotless, txDotless, txDotless] 2 1 (by decide) (by decide)).1

/-! ### C6 and C10: statistics -/

theorem foldl_price_sum (l : List Transaction) : ∀ a : ℚ,
    l.foldl (fun acc t => acc + t.price) a = a + (l.map (fun t => t.price)).sum := by
  induction l with
  | nil => intro a; simp
  | cons t ts ih => intro a; simp [ih, add_assoc]

theorem filter_not_split (l : List Transaction) (p : Transaction → Bool) :
    (l.filter p).length + (l.filter (fun t => !p t)).length = l.length := by
  induction l with
  | nil => rfl
  | cons t ts ih =>
      cases hp : p t <;> simp [List.filter_cons, hp] <;> omega

/-- C6: the statistics aggregation returns the sum of the prices of its
input records (equal for any reordering of the records, hence
order-independent), the count of records with sold true, and the count with
sold false; the endpoint applies it to the windowed records with no search
filter involved. -/
theorem c6_statistics (ts : List Transaction) :
    (statsOf ts).totalSaleAmount = (ts.map (fun t => t.price)).sum ∧
    (statsOf ts).totalSoldItems = (ts.filter (fun t => t.sold)).length ∧
    (statsOf ts).totalNotSoldItems = (ts.filter (fun t => !t.sold)).length ∧
    (∀ ts' : List Transaction, ts.Perm ts' → statsOf ts = statsOf ts') ∧
    (∀ (store : List Transaction) (month : List Char) (r : StatsResult),
        getStatistics store month = .ok r →
          r = statsOf (windowed store (monthArg month))) := by
  refine ⟨?_, rfl, rfl, ?_, ?_⟩
  · rw [statsOf]
    rw [foldl_price_sum]
    simp
  · intro ts' hperm
    simp only [statsOf, StatsResult.mk.injEq]
    refine ⟨?_, ?_, ?_⟩
    · rw [foldl_price_sum, foldl_price_sum]
      rw [(hperm.map (fun t => t.price)).sum_eq]
    · exact (hperm.filter (fun t => t.sold)).length_eq
    · exact (hperm.filter (fun t => !t.sold)).length_eq
  · intro store month r hok
    by_cases hv : monthValid (some month) = true
    · rw [getStatistics, if_pos hv] at hok
      cases heq : dateMonth (padStart2 month) with
      | none =>
          rw [heq] at hok
          cases hok
      | some m =>
          rw [heq] at hok
          cases hok
          simp [monthArg, heq]
    · rw [getStatistics, if_neg hv] at hok
      cases hok

/-- C6 witness: order-independence applied to a concrete two-record
reordering. -/
theorem c6_statistics_witness :
    statsOf [txDotless, { txDotless with price := 7 }] =
      statsOf [{ txDotless with price := 7 }, txDotless] :=
  (c6_statistics [txDotless, { txDotless with price := 7 }]).2.2.2.1
    [{ txDotless with price := 7 }, txDotless] (by decide)

/-- C10: the sold and not-sold tallies of the statistics endpoint partition
the windowed records — their sum is the number of records whose dateOfSale
falls in the month window. -/
theorem c10_sold_partition (store : List Transaction) (month : List Char)
    (r : StatsResult) (hok : getStatistics store month = .ok r) :
    r.totalSoldItems + r.totalNotSoldItems = (windowed store (monthArg month)).length := by
  by_cases hv : monthValid (some month) = true
  · rw [getStatistics, if_pos hv] at hok
    cases heq : dateMonth (padStart2 month) with
    | none =>
        rw [heq] at hok
        cases hok
    | some m =>
        rw [heq] at hok
        cases hok
        have hma : monthArg month = m := by
          simp [monthArg, heq]
        rw [hma]
        exact filter_not_split (windowed store m) (fun t => t.sold)
  · rw [getStatistics, if_neg hv] at hok
    cases hok

/-- C10 witness: the partition applied to a concrete store and month. -/
theorem c10_sold_partition_witness :
    (statsOf (windowed [txDotless] (monthArg ("3".toList)))).totalSoldItems +
        (statsOf (windowed [txDotless] (monthArg ("3".toList)))).totalNotSoldItems =
      (windowed [txDotless] (monthArg ("3".toList))).length :=
  c10_sold_partition [txDotless] ("3".toList)
    (statsOf (windowed [txDotless] (monthArg ("3".toList)))) rfl

/-! ### C2: the price histogram -/

theorem bucketCounts_foldl (ts : List Transaction) : ∀ (acc : Fin 10 → Nat) (i : Fin 10),
    (ts.foldl (fun a t => bumpBucket (bucketIdx t.price) a) acc) i
      = acc i + ts.countP (fun t => decide (bucketIdx t.price = i)) := by
  induction ts with
  | nil => intro acc i; simp
  | cons t ts ih =>
      intro acc i
      rw [List.foldl_cons, ih, List.countP_cons]
      simp only [bumpBucket, decide_eq_true_eq]
      by_cases h : bucketIdx t.price = i
      · rw [if_pos h.symm, if_pos h]
        omega
      · rw [if_neg (fun hh => h hh.symm), if_neg h]
        omega

theorem bucketCounts_countP (ts : List Transaction) (i : Fin 10) :
    bucketCounts ts i = ts.countP (fun t => decide (bucketIdx t.price = i)) := by
  rw [bucketCounts, bucketCounts_foldl]
  omega

theorem sum_map_addF (l : List (Fin 10)) (f g : Fin 10 → Nat) :
    (l.map (fun i => f i + g i)).sum = (l.map f).sum + (l.map g).sum := by
  induction l with
  | nil => rfl
  | cons a l ih => simp [ih]; omega

theorem indicator_sum_finRange (j : Fin 10) :
    ((List.finRange 10).map (fun i => if j = i then 1 else 0)).sum = 1 := by
  fin_cases j <;> decide

theorem bucket_total (ts : List Transaction) :
    ((List.finRange 10).map
        (fun i => ts.countP (fun t => decide (bucketIdx t.price = i)))).sum
      = ts.length := by
  induction ts with
  | nil => simp [List.countP_nil]
  | cons t ts ih =>
      simp only [List.countP_cons, decide_eq_true_eq]
      rw [sum_map_addF, ih]
      have hind :
          ((List.finRange 10).map
              (fun i => if bucketIdx t.price = i then 1 else 0)).sum = 1 :=
        indicator_sum_finRange (bucketIdx t.price)
      rw [hind]
      simp [Nat.add_comm]

/-- C2: the histogram renders exactly the ten fixed keys in order; the
if/else chain is inclusive at each upper bound (price 100 counts in "0-100",
price 101 in "101-200") with everything above 900 in "901-above"; each
record lands in exactly one bucket (the count of bucket i is the number of
records the chain assigns index i), so the ten counts sum to the number of
windowed records; and the endpoint applies this to the windowed records. -/
theorem c2_histogram (ts : List Transaction) :
    (barChartData ts).map Prod.fst = bucketNames ∧
    bucketIdx 100 = 0 ∧
    bucketIdx 101 = 1 ∧
    (∀ p : ℚ, 900 < p → bucketIdx p = 9) ∧
    (∀ i : Fin 10,
        bucketCounts ts i = ts.countP (fun t => decide (bucketIdx t.price = i))) ∧
    ((barChartData ts).map Prod.snd).sum = ts.length ∧
    (∀ (store : List Transaction) (month : List Char) (r : List (String × Nat)),
        getBarChartData store month = .ok r →
          r = barChartData (windowed store (monthArg month))) := by
  refine ⟨?_, by decide, by decide, ?_, bucketCounts_countP ts, ?_, ?_⟩
  · rfl
  · intro p hp
    rw [bucketIdx]
    rw [if_neg (by linarith), if_neg (by linarith), if_neg (by linarith),
      if_neg (by linarith), if_neg (by linarith), if_neg (by linarith),
      if_neg (by linarith), if_neg (by linarith), if_neg (by linarith)]
  · rw [barChartData, List.map_map]
    have hcomp :
        ((List.finRange 10).map
            (fun i => (Prod.snd ∘ fun i => (bucketNames.getD (i : Nat) "", bucketCounts ts i)) i)).sum
          = ((List.finRange 10).map (fun i => bucketCounts ts i)).sum := by
      rfl
    rw [hcomp]
    have hpt : (fun i : Fin 10 => bucketCounts ts i)
        = (fun i : Fin 10 => ts.countP (fun t => decide (bucketIdx t.price = i))) := by
      funext i
      exact bucketCounts_countP ts i
    rw [hpt]
    exact bucket_total ts
  · intro store month r hok
    by_cases hv : monthValid (some month) = true
    · rw [getBarChartData, if_pos hv] at hok
      cases heq : dateMonth (padStart2 month) with
      | none =>
          rw [heq] at hok
          cases hok
      | some m =>
          rw [heq] at hok
          cases hok
          simp [monthArg, heq]
    · rw [getBarChartData, if_neg hv] at hok
      cases hok

/-- C2 witness: the open-ended last bucket applied to a concrete price above
900. -/
theorem c2_histogram_witness : bucketIdx 901 = 9 :=
  (c2_histogram []).2.2.2.1 901 (by norm_num)

/-! ### C8: the category tally -/

theorem keyVal_bump (c k : String) (l : List (String × JsonNum)) :
    keyVal k (bumpCategory c l)
      = if k = c then stepVal c (keyVal c l) else keyVal k l := by
  by_cases hk : k = c
  · subst hk
    rw [if_pos rfl]
    induction l with
    | nil =>
        simp only [bumpCategory, keyVal]
        by_cases hp : k ∈ protoKeys
        · simp [hp, keyVal, stepVal]
        · by_cases hq : k = "__proto__"
          · subst hq
            simp [hp, keyVal, stepVal]
          · simp [hp, hq, keyVal, stepVal]
    | cons p rest ih =>
        obtain ⟨k', v⟩ := p
        by_cases h1 : k' = k
        · subst h1
          simp only [bumpCategory, if_pos rfl]
          cases v <;> simp [keyVal, stepVal]
        · simp only [bumpCategory, if_neg h1]
          simp [keyVal, h1, ih]
  · rw [if_neg hk]
    have hk' : ¬ c = k := fun hh => hk hh.symm
    induction l with
    | nil =>
        simp only [bumpCategory, keyVal]
        by_cases hp : c ∈ protoKeys
        · simp [hp, keyVal, hk']
        · by_cases hq : c = "__proto__"
          · subst hq
            simp [hp, keyVal]
          · simp [hp, hq, keyVal, hk']
    | cons p rest ih =>
        obtain ⟨k', v⟩ := p
        by_cases h1 : k' = c
        · have h2 : ¬ k' = k := by
            rw [h1]
            exact hk'
          simp only [bumpCategory, if_pos h1]
          cases v <;> simp [keyVal, h2]
        · simp only [bumpCategory, if_neg h1]
          by_cases h2 : k' = k <;> simp [keyVal, h2, ih]

theorem stepVal_tallyValue (k : String) (n : Nat) :
    stepVal k (tallyValue k n) = tallyValue k (n + 1) := by
  by_cases hp : k ∈ protoKeys
  · match n with
    | 0 => simp [tallyValue, stepVal, hp]
    | 1 => simp [tallyValue, stepVal, hp]
    | (m + 2) =>
        have h1 : tallyValue k (m + 2) = some (JsonNum.num (m + 1)) := by
          simp [tallyValue, hp]
        have h2 : tallyValue k (m + 2 + 1) = some (JsonNum.num (m + 2)) := by
          simp [tallyValue, hp]
        rw [h1, h2, stepVal]
  · by_cases hq : k = "__proto__"
    · subst hq
      simp [tallyValue, stepVal, hp]
    · match n with
      | 0 => simp [tallyValue, stepVal, hp, hq]
      | (m + 1) => simp [tallyValue, stepVal, hp, hq]

theorem keyVal_tally_aux (k : String) (ts : List Transaction) :
    ∀ (acc : List (String × JsonNum)) (n : Nat),
      keyVal k acc = tallyValue k n →
      keyVal k (ts.foldl (fun a t => bumpCategory t.category a) acc)
        = tallyValue k (n + (ts.filter (fun t => decide (t.category = k))).length) := by
  induction ts with
  | nil =>
      intro acc n h
      simpa using h
  | cons t ts ih =>
      intro acc n h
      rw [List.foldl_cons]
      by_cases hc : t.category = k
      · have hstep : keyVal k (bumpCategory t.category acc) = tallyValue k (n + 1) := by
          rw [keyVal_bump, if_pos hc.symm, hc, h, stepVal_tallyValue]
        rw [ih (bumpCategory t.category acc) (n + 1) hstep]
        have hfil : List.filter (fun x => decide (x.category = k)) (t :: ts)
            = t :: List.filter (fun x => decide (x.category = k)) ts := by
          simp [List.filter_cons, hc]
        rw [hfil, List.length_cons]
        have harith : n + 1 + (ts.filter (fun x => decide (x.category = k))).length
            = n + ((ts.filter (fun x => decide (x.category = k))).length + 1) := by
          omega
        rw [harith]
      · have hstep : keyVal k (bumpCategory t.category acc) = tallyValue k n := by
          rw [keyVal_bump, if_neg (fun hh => hc hh.symm), h]
        rw [ih (bumpCategory t.category acc) n hstep]
        have hfil : List.filter (fun x => decide (x.category = k)) (t :: ts)
            = List.filter (fun x => decide (x.category = k)) ts := by
          simp [List.filter_cons, hc]
        rw [hfil]

theorem tallyValue_zero (k : String) : tallyValue k 0 = none := by
  rw [tallyValue]
  by_cases hp : k ∈ protoKeys
  · simp [hp]
  · by_cases hq : k = "__proto__"
    · subst hq
      simp [hp]
    · simp [hp, hq]

theorem keyVal_tally (ts : List Transaction) (k : String) :
    keyVal k (tallyCategories ts)
      = tallyValue k ((ts.filter (fun t => decide (t.category = k))).length) := by
  have h0 : keyVal k ([] : List (String × JsonNum)) = tallyValue k 0 := by
    rw [tallyValue_zero]
    rfl
  have h := keyVal_tally_aux k ts [] 0 h0
  simpa using h

theorem bump_entry (c : String) (l : List (String × JsonNum))
    (h : ∀ p ∈ l, p.2 = JsonNum.nan ∨ ∃ n, 0 < n ∧ p.2 = JsonNum.num n) :
    ∀ p ∈ bumpCategory c l,
      p.2 = JsonNum.nan ∨ ∃ n, 0 < n ∧ p.2 = JsonNum.num n := by
  induction l with
  | nil =>
      intro p hp
      simp only [bumpCategory] at hp
      by_cases hp1 : c ∈ protoKeys
      · rw [if_pos hp1] at hp
        simp only [List.mem_singleton] at hp
        subst hp
        exact Or.inl rfl
      · rw [if_neg hp1] at hp
        by_cases hp2 : c = "__proto__"
        · rw [if_pos hp2] at hp
          simp at hp
        · rw [if_neg hp2] at hp
          simp only [List.mem_singleton] at hp
          subst hp
          exact Or.inr ⟨1, by omega, rfl⟩
  | cons q rest ih =>
      obtain ⟨k', v⟩ := q
      intro p hp
      simp only [bumpCategory] at hp
      by_cases h1 : k' = c
      · rw [if_pos h1] at hp
        rcases List.mem_cons.mp hp with rfl | hmem
        · cases v with
          | num m => exact Or.inr ⟨m + 1, Nat.succ_pos m, rfl⟩
          | nan => exact Or.inr ⟨1, by omega, rfl⟩
        · exact h p (List.mem_cons_of_mem _ hmem)
      · rw [if_neg h1] at hp
        rcases List.mem_cons.mp hp with rfl | hmem
        · exact h (k', v) (List.mem_cons_self _ _)
        · exact ih (fun q hq => h q (List.mem_cons_of_mem _ hq)) p hmem

theorem tally_entry_aux (ts : List Transaction) :
    ∀ acc : List (String × JsonNum),
      (∀ p ∈ acc, p.2 = JsonNum.nan ∨ ∃ n, 0 < n ∧ p.2 = JsonNum.num n) →
      ∀ p ∈ ts.foldl (fun a t => bumpCategory t.category a) acc,
        p.2 = JsonNum.nan ∨ ∃ n, 0 < n ∧ p.2 = JsonNum.num n := by
  induction ts with
  | nil =>
      intro acc hacc
      simpa using hacc
  | cons t ts ih =>
      intro acc hacc
      rw [List.foldl_cons]
      exact ih _ (bump_entry _ _ hacc)

/-- A record whose category is the inherited Object.prototype key
"constructor". -/
def txCtor : Transaction :=
  { title := ['a'], description := ['b'], price := 3, category := "constructor"
  , sold := true, dateOfSale := { year := 2021, month := 3, day := 2, time := 0 } }

/-- A record whose category is "__proto__". -/
def txProtoCat : Transaction :=
  { title := ['a'], description := ['b'], price := 3, category := "__proto__"
  , sold := false, dateOfSale := { year := 2021, month := 3, day := 2, time := 0 } }

/-- C8 counterexample: one record with category "constructor" is tallied as
NaN (the inherited Object.prototype function is truthy, so the reset to 0 is
skipped and the increment produces NaN), not as its count 1; and a record
with category "__proto__" is dropped from the tally entirely (the assignment
hits the inherited setter and never creates an own key). -/
theorem c8_category_counterexample :
    keyVal "constructor" (tallyCategories [txCtor]) = some JsonNum.nan ∧
      ([txCtor].filter (fun t => decide (t.category = "constructor"))).length = 1 ∧
      tallyCategories [txProtoCat] = [] ∧
      ([txProtoCat].filter (fun t => decide (t.category = "__proto__"))).length = 1 := by
  refine ⟨by decide, by decide, by decide, by decide⟩

/-- C8 (amended): for every label that does not collide with an inherited
Object.prototype property and is not "__proto__", the category tally maps
the label to the exact count of windowed records bearing it, the label
appearing exactly when that count is positive; in general every key's value
is `tallyValue` of its count — so a label naming an inherited
Object.prototype property is recorded as NaN when borne once and as one
less than its count thereafter, and "__proto__" is never recorded — every
entry of the tally is NaN or a positive number (never 0), and the endpoint
applies the tally to the windowed records. -/
theorem c8_category_tally (ts : List Transaction) (k : String) :
    keyVal k (tallyCategories ts)
        = tallyValue k ((ts.filter (fun t => decide (t.category = k))).length) ∧
    (k ∉ protoKeys → k ≠ "__proto__" →
        keyVal k (tallyCategories ts)
          = (if (ts.filter (fun t => decide (t.category = k))).length = 0 then none
             else some (JsonNum.num
               ((ts.filter (fun t => decide (t.category = k))).length)))) ∧
    (∀ p ∈ tallyCategories ts,
        p.2 = JsonNum.nan ∨ ∃ n, 0 < n ∧ p.2 = JsonNum.num n) ∧
    (∀ (store : List Transaction) (month : List Char) (r : List (String × JsonNum)),
        getPieChartData store month = .ok r →
          r = tallyCategories (windowed store (monthArg month))) := by
  refine ⟨keyVal_tally ts k, ?_, tally_entry_aux ts [] (by simp), ?_⟩
  · intro hp hq
    rw [keyVal_tally, tallyValue]
    rw [if_neg hp, if_neg hq]
  · intro store month r hok
    by_cases hv : monthValid (some month) = true
    · rw [getPieChartData, if_pos hv] at hok
      cases heq : dateMonth (padStart2 month) with
      | none =>
          rw [heq] at hok
          cases hok
      | some m =>
          rw [heq] at hok
          cases hok
          simp [monthArg, heq]
    · rw [getPieChartData, if_neg hv] at hok
      cases hok

/-- C8 witness: the exact-count clause applied to a concrete record list and
an ordinary label. -/
theorem c8_category_tally_witness :
    keyVal "c" (tallyCategories [txDotless])
      = (if ([txDotless].filter (fun t => decide (t.category = "c"))).length = 0
         then none
         else some (JsonNum.num
           (([txDotless].filter (fun t => decide (t.category = "c"))).length))) :=
  (c8_category_tally [txDotless] "c").2.1 (by decide) (by decide)

/-! ### C7: the seed loader's price coercion -/

/-- A raw seed record whose price field is the non-numeric string "abc". -/
def rawAbc : RawTransaction :=
  { title := [], description := [], price := .str ("abc".toList), category := "c"
  , sold := true, dateOfSale := { year := 2021, month := 1, day := 1, time := 0 } }

/-- A raw seed record whose price field is the string "42.5". -/
def rawHalf : RawTransaction :=
  { title := [], description := [], price := .str ("42.5".toList), category := "c"
  , sold := true, dateOfSale := { year := 2021, month := 1, day := 1, time := 0 } }

/-- C7: the seed loader stores every fetched record (same length, position by
position the transform of the raw record), the stored price is the parseFloat
value of the raw price field with parse failure coerced to 0 — so a record
with price "abc" is stored with price 0 and one with price "42.5" with price
42.5 — and every stored price is a rational number (never a missing/NaN
value). -/
theorem c7_seed_prices (raws : List RawTransaction) :
    (initDatabase raws).length = raws.length ∧
    (∀ i : Nat, (initDatabase raws)[i]? = (raws[i]?).map seedTransform) ∧
    (∀ r : RawTransaction,
        (seedTransform r).price =
          (match parseFloatJS r.price with | some q => q | none => 0)) ∧
    (∀ r : RawTransaction, parseFloatJS r.price = none → (seedTransform r).price = 0) ∧
    (∀ (r : RawTransaction) (q : ℚ),
        parseFloatJS r.price = some q → (seedTransform r).price = q) ∧
    (seedTransform rawAbc).price = 0 ∧
    (seedTransform rawHalf).price = (85 / 2 : ℚ) := by
  refine ⟨?_, ?_, fun r => rfl, ?_, ?_, by decide, ?_⟩
  · rw [initDatabase, List.length_map]
  · intro i
    rw [initDatabase, List.getElem?_map]
  · intro r hnone
    rw [seedTransform]
    simp [hnone]
  · intro r q hsome
    rw [seedTransform]
    simp [hsome]
  · have h : (seedTransform rawHalf).price = (42 : ℚ) + 5 / 10 ^ 1 := rfl
    rw [h]
    norm_num

/-- C7 witness: the parse-failure clause applied to the concrete raw record
with price "abc". -/
theorem c7_seed_prices_witness : (seedTransform rawAbc).price = 0 :=
  (c7_seed_prices [rawAbc]).2.2.2.1 rawAbc (by decide)

/-! ### C9: the combined view -/

/-- C9: the statistics, bar-chart and pie-chart portions of the combined
payload do not depend on the search string (only the transactions portion
does), and the combined call succeeds exactly when all four sub-calls
succeed with the corresponding components — so if any one sub-computation
fails the combined operation fails wholly, returning no partial result. -/
theorem c9_combined (store : List Transaction) (month s1 s2 : List Char)
    (page perPage : Nat) :
    ((getCombinedData store month s1 page perPage).map
          (fun c => (c.statistics, c.barChart, c.pieChart))
        = (getCombinedData store month s2 page perPage).map
          (fun c => (c.statistics, c.barChart, c.pieChart))) ∧
    (∀ c : CombinedResult,
        getCombinedData store month s1 page perPage = .ok c ↔
          (getTransactions store month page perPage s1 = .ok c.transactions ∧
            getStatistics store month = .ok c.statistics ∧
            getBarChartData store month = .ok c.barChart ∧
            getPieChartData store month = .ok c.pieChart)) := by
  by_cases hv : monthValid (some month) = true
  · cases heq : dateMonth (padStart2 month) with
    | none =>
        constructor
        · simp [getCombinedData, getTransactions, hv, heq, Except.map]
        · intro c
          simp [getCombinedData, getTransactions, hv, heq]
    | some m =>
        constructor
        · simp [getCombinedData, getTransactions, getStatistics, getBarChartData,
            getPieChartData, hv, heq, Except.map]
        · intro c
          obtain ⟨ct, cs, cb, cp⟩ := c
          simp only [getCombinedData, getTransactions, getStatistics, getBarChartData,
            getPieChartData, hv, heq, if_pos, if_true]
          constructor
          · intro h
            injection h with h
            injection h with h1 h2 h3 h4
            subst h1; subst h2; subst h3; subst h4
            exact ⟨rfl, rfl, rfl, rfl⟩
          · rintro ⟨h1, h2, h3, h4⟩
            injection h1 with h1
            injection h2 with h2
            injection h3 with h3
            injection h4 with h4
            subst h1; subst h2; subst h3; subst h4
            rfl
  · have hv' : monthValid (some month) = false := by
      cases hmv : monthValid (some month)
      · rfl
      · exact absurd hmv hv
    constructor
    · simp [getCombinedData, hv', Except.map]
    · intro c
      simp [getCombinedData, getTransactions, hv']

/-- C9 witness: search-independence of the aggregate portions at a concrete
store, month and two different search strings. -/
theorem c9_combined_witness :
    (getCombinedData [txDotless] ("3".toList) ("x".toList) 1 10).map
        (fun c => (c.statistics, c.barChart, c.pieChart))
      = (getCombinedData [txDotless] ("3".toList) ("zzz".toList) 1 10).map
        (fun c => (c.statistics, c.barChart, c.pieChart)) :=
  (c9_combined [txDotless] ("3".toList) ("x".toList) ("zzz".toList) 1 10).1
